import Mathlib

/-!
# Verification of the Stick-CPlus Vibration Analyser core

Shallow embedding of `src/VibrationAnalyzer_v1.7_RTC.ino` (v1.7 + RTC).

Modelling conventions:
* C `float`/`double` values are modelled as exact rationals (`ℚ`); a float
  value round-trips through storage unchanged, which is what the embedding's
  `ℚ` equality expresses ("bit-identical").
* The external libm `sqrtf` and the arduinoFFT library (an external
  dependency, not part of this repository) are modelled as function
  parameters: every theorem proved here holds for every interpretation of
  those externals.
* C `int` is modelled as `ℤ`; the C `%` operator (truncating) is `Int.tmod`.
* LittleFS files are modelled as lists of stored words (`Val`), one word per
  written scalar; a fallible read returns `Option`.
-/
/-- Model of `SAMPLES` (line 40): number of samples per capture. -/
def SAMPLES : Nat := 1024

/-- Model of `MAX_RECORDS` (line 46): capacity of the circular record store. -/
def MAX_RECORDS : Int := 30

/-- Model of `RecordDateTime` (lines 51-58): RTC wall-clock time stamp. -/
structure RecordDateTime where
  year : Nat
  month : Nat
  day : Nat
  hour : Nat
  minute : Nat
  second : Nat
deriving DecidableEq, Repr

/-- Model of `RecordMeta` (lines 61-70): fixed-size per-record metadata header. -/
structure RecordMeta where
  timestamp : Nat
  rtcTime : RecordDateTime
  samplingFreq : ℚ
  peakX : ℚ
  peakY : ℚ
  peakZ : ℚ
  maxX : ℚ
  maxY : ℚ
  maxZ : ℚ
  minX : ℚ
  minY : ℚ
  minZ : ℚ
  meanX : ℚ
  meanY : ℚ
  meanZ : ℚ
  sdX : ℚ
  sdY : ℚ
  sdZ : ℚ
deriving DecidableEq, Repr

/-- A complete record: metadata, the three raw-sample arrays and the three
spectrum arrays, exactly the data `saveCurrentRecord` writes (lines 511-522). -/
structure Record where
  meta : RecordMeta
  accXvec : List ℚ
  accYvec : List ℚ
  accZvec : List ℚ
  vRealX : List ℚ
  vRealY : List ℚ
  vRealZ : List ℚ
deriving DecidableEq, Repr

/-- A record is well formed when all six arrays have the compile-time length
`SAMPLES`, as the fixed-size global buffers guarantee (lines 83-89). -/
def Record.wf (r : Record) : Prop :=
  r.accXvec.length = SAMPLES ∧ r.accYvec.length = SAMPLES ∧
  r.accZvec.length = SAMPLES ∧ r.vRealX.length = SAMPLES ∧
  r.vRealY.length = SAMPLES ∧ r.vRealZ.length = SAMPLES

instance (r : Record) : Decidable r.wf := by
  unfold Record.wf; infer_instance

/-- One stored word of a record file: either an integral field or a float
field of the metadata/sample data. -/
inductive Val where
  | n (v : Nat) : Val
  | f (v : ℚ) : Val
deriving DecidableEq, Repr

/-- Serialization of `RecordMeta`, in the exact field order of the struct
written by `file.write((uint8_t*)&meta, sizeof(RecordMeta))` (line 512). -/
def serializeMeta (m : RecordMeta) : List Val :=
  [Val.n m.timestamp,
   Val.n m.rtcTime.year, Val.n m.rtcTime.month, Val.n m.rtcTime.day,
   Val.n m.rtcTime.hour, Val.n m.rtcTime.minute, Val.n m.rtcTime.second,
   Val.f m.samplingFreq, Val.f m.peakX, Val.f m.peakY, Val.f m.peakZ,
   Val.f m.maxX, Val.f m.maxY, Val.f m.maxZ,
   Val.f m.minX, Val.f m.minY, Val.f m.minZ,
   Val.f m.meanX, Val.f m.meanY, Val.f m.meanZ,
   Val.f m.sdX, Val.f m.sdY, Val.f m.sdZ]

/-- The record file body written by `saveCurrentRecord` (lines 511-522):
metadata header, then `accXvec`, `accYvec`, `accZvec` (each `SAMPLES`
floats), then `vRealX`, `vRealY`, `vRealZ` (each written with
`SAMPLES * sizeof(float)`, i.e. the FULL arrays). No length framing. -/
def serializeRecord (r : Record) : List Val :=
  serializeMeta r.meta ++
  r.accXvec.map Val.f ++ r.accYvec.map Val.f ++ r.accZvec.map Val.f ++
  r.vRealX.map Val.f ++ r.vRealY.map Val.f ++ r.vRealZ.map Val.f

/-- Read back a `RecordMeta` from the head of a file (the
`file.read((uint8_t*)&meta, sizeof(RecordMeta))` of `loadRecord`,
line 563); returns the remaining words as well. -/
def deserializeMeta : List Val → Option (RecordMeta × List Val)
  | Val.n ts :: Val.n yr :: Val.n mo :: Val.n dy :: Val.n hh :: Val.n mi ::
    Val.n se :: Val.f sf :: Val.f px :: Val.f py :: Val.f pz ::
    Val.f mxx :: Val.f mxy :: Val.f mxz :: Val.f mnx :: Val.f mny ::
    Val.f mnz :: Val.f mex :: Val.f mey :: Val.f mez ::
    Val.f sdx :: Val.f sdy :: Val.f sdz :: rest =>
      some (⟨ts, ⟨yr, mo, dy, hh, mi, se⟩, sf, px, py, pz,
             mxx, mxy, mxz, mnx, mny, mnz, mex, mey, mez, sdx, sdy, sdz⟩,
            rest)
  | _ => none

/-- Read back `n` float words (one `file.read` of an array in `loadRecord`,
lines 578-585); returns the floats and the remaining words. -/
def readFloats : Nat → List Val → Option (List ℚ × List Val)
  | 0, l => some ([], l)
  | n + 1, Val.f q :: l =>
      match readFloats n l with
      | some (qs, rest) => some (q :: qs, rest)
      | none => none
  | _ + 1, _ => none

/-- Parse a whole record file in the exact order `loadRecord` reads it
(lines 561-585): metadata, three raw arrays, three spectrum arrays, each
array `SAMPLES` floats long. -/
def deserializeRecord (l : List Val) : Option Record :=
  match deserializeMeta l with
  | none => none
  | some (m, l1) =>
    match readFloats SAMPLES l1 with
    | none => none
    | some (ax, l2) =>
      match readFloats SAMPLES l2 with
      | none => none
      | some (ay, l3) =>
        match readFloats SAMPLES l3 with
        | none => none
        | some (az, l4) =>
          match readFloats SAMPLES l4 with
          | none => none
          | some (vx, l5) =>
            match readFloats SAMPLES l5 with
            | none => none
            | some (vy, l6) =>
              match readFloats SAMPLES l6 with
              | none => none
              | some (vz, _) =>
                some ⟨m, ax, ay, az, vx, vy, vz⟩

/-! ## Record store state and live-system state -/
/-- The storage-related globals (lines 76-80) plus the LittleFS contents:
`files` maps a physical slot (the `rec%03d.bin` file index) to the file
body, `cursorFile` is the separate `/meta.dat` cursor record written by
`saveStorageMetadata` (lines 409-417). -/
structure StoreSt where
  storageReady : Bool
  storedRecordCount : Int
  oldestRecordIndex : Int
  newestRecordIndex : Int
  files : Int → Option (List Val)
  cursorFile : Option (Int × Int × Int)

/-- The reset/initial storage state (lines 434-439, also set by
`clearAllRecords`, lines 623-625): empty ring, oldest 0, newest -1. -/
def initialStore (ready : Bool) : StoreSt :=
  ⟨ready, 0, 0, -1, fun _ => none, none⟩

/-- The ring-cursor part of `saveCurrentRecord` (lines 443-462 and 511-527):
advance `newestRecordIndex`, evict or grow, then (only if the data-file
open succeeds, modelled by `openOk`) write the record file and rewrite the
cursor record.  The blob is the serialized record body. -/
def storeAppend (st : StoreSt) (blob : List Val) (openOk : Bool) : Bool × StoreSt :=
  if st.storageReady = false then (false, st) else
  let newest := (st.newestRecordIndex + 1).tmod MAX_RECORDS
  let evict := MAX_RECORDS ≤ st.storedRecordCount
  let oldest := if evict then (st.oldestRecordIndex + 1).tmod MAX_RECORDS
                else st.oldestRecordIndex
  let cnt := if evict then st.storedRecordCount else st.storedRecordCount + 1
  let st1 : StoreSt := { st with newestRecordIndex := newest,
                                 oldestRecordIndex := oldest,
                                 storedRecordCount := cnt }
  if openOk = false then (false, st1)
  else (true, { st1 with
    files := fun j => if j = newest then some blob else st.files j,
    cursorFile := some (cnt, oldest, newest) })

/-- Slot resolution and file lookup of `loadRecord` (lines 543-559): guard,
clamp, convert logical index to physical slot, open the file. -/
def readLogical (st : StoreSt) (logicalIndex : Int) : Option (List Val) :=
  if st.storageReady = false ∨ logicalIndex < 0 ∨ st.storedRecordCount = 0
  then none else
  let li := if st.storedRecordCount ≤ logicalIndex
            then st.storedRecordCount - 1 else logicalIndex
  let fileIndex := (st.oldestRecordIndex + li).tmod MAX_RECORDS
  st.files fileIndex

/-- Ring invariant maintained by the cursor bookkeeping: the newest slot is
one before `oldest + count` modulo capacity, and all cursors in range. -/
def StoreSt.ringInv (st : StoreSt) : Prop :=
  0 ≤ st.storedRecordCount ∧ st.storedRecordCount ≤ MAX_RECORDS ∧
  0 ≤ st.oldestRecordIndex ∧ st.oldestRecordIndex < MAX_RECORDS ∧
  -1 ≤ st.newestRecordIndex ∧ st.newestRecordIndex < MAX_RECORDS ∧
  (st.newestRecordIndex + 1).tmod MAX_RECORDS =
    (st.oldestRecordIndex + st.storedRecordCount).tmod MAX_RECORDS

instance (st : StoreSt) : Decidable st.ringInv := by
  unfold StoreSt.ringInv; infer_instance

/-- The live global state of the sketch that the storage operations touch:
the working capture/spectrum buffers (lines 83-89), the derived scalars
(lines 123-131), the current record time (line 73), the view index
(line 77), and the store. -/
structure Sys where
  store : StoreSt
  accXvec : List ℚ
  accYvec : List ℚ
  accZvec : List ℚ
  vRealX : List ℚ
  vRealY : List ℚ
  vRealZ : List ℚ
  samplingFrequency : ℚ
  xM : ℚ
  yM : ℚ
  zM : ℚ
  maxV : ℚ × ℚ × ℚ
  minV : ℚ × ℚ × ℚ
  meanV : ℚ × ℚ × ℚ
  sdV : ℚ × ℚ × ℚ
  currentRecordTime : RecordDateTime
  currentViewRecord : Int

/-- The fixed-size buffer arrays all hold `SAMPLES` values. -/
def Sys.wfBuffers (s : Sys) : Prop :=
  s.accXvec.length = SAMPLES ∧ s.accYvec.length = SAMPLES ∧
  s.accZvec.length = SAMPLES ∧ s.vRealX.length = SAMPLES ∧
  s.vRealY.length = SAMPLES ∧ s.vRealZ.length = SAMPLES

/-! ## Statistics engine (the two computation sites) -/
/-- Zip the three axis buffers into per-sample triples (the loops index all
three arrays with the same `i`). -/
def zip3 (xs ys zs : List ℚ) : List (ℚ × ℚ × ℚ) := xs.zip (ys.zip zs)

/-- Accumulator of the first statistics loop on the save path
(`saveCurrentRecord`, lines 479-489). -/
structure StatAcc where
  maxX : ℚ
  maxY : ℚ
  maxZ : ℚ
  minX : ℚ
  minY : ℚ
  minZ : ℚ
  sumX : ℚ
  sumY : ℚ
  sumZ : ℚ

/-- One iteration of the save-path statistics loop (lines 479-489). -/
def statStep (a : StatAcc) (v : ℚ × ℚ × ℚ) : StatAcc :=
  { maxX := if a.maxX < v.1 then v.1 else a.maxX
    minX := if v.1 < a.minX then v.1 else a.minX
    maxY := if a.maxY < v.2.1 then v.2.1 else a.maxY
    minY := if v.2.1 < a.minY then v.2.1 else a.minY
    maxZ := if a.maxZ < v.2.2 then v.2.2 else a.maxZ
    minZ := if v.2.2 < a.minZ then v.2.2 else a.minZ
    sumX := a.sumX + v.1
    sumY := a.sumY + v.2.1
    sumZ := a.sumZ + v.2.2 }

/-- Per-axis capture statistics: min, max, mean and population SD. -/
structure CaptureStats where
  maxX : ℚ
  maxY : ℚ
  maxZ : ℚ
  minX : ℚ
  minY : ℚ
  minZ : ℚ
  meanX : ℚ
  meanY : ℚ
  meanZ : ℚ
  sdX : ℚ
  sdY : ℚ
  sdZ : ℚ
deriving DecidableEq

/-- The statistics computation on the save path (`saveCurrentRecord`,
lines 475-503): max/min/mean accumulation from sentinels -9999/9999, then
mean = sum/SAMPLES, then population SD via `sqrtf(sumsq/SAMPLES)`.  `sq`
is the external libm `sqrtf`. -/
def saveStats (sq : ℚ → ℚ) (xs ys zs : List ℚ) : CaptureStats :=
  let a := (zip3 xs ys zs).foldl statStep
    ⟨-9999, -9999, -9999, 9999, 9999, 9999, 0, 0, 0⟩
  let meanX := a.sumX / (SAMPLES : ℚ)
  let meanY := a.sumY / (SAMPLES : ℚ)
  let meanZ := a.sumZ / (SAMPLES : ℚ)
  let sd := (zip3 xs ys zs).foldl
    (fun (acc : ℚ × ℚ × ℚ) v =>
      (acc.1 + (v.1 - meanX) * (v.1 - meanX),
       acc.2.1 + (v.2.1 - meanY) * (v.2.1 - meanY),
       acc.2.2 + (v.2.2 - meanZ) * (v.2.2 - meanZ))) (0, 0, 0)
  { maxX := a.maxX, maxY := a.maxY, maxZ := a.maxZ
    minX := a.minX, minY := a.minY, minZ := a.minZ
    meanX := meanX, meanY := meanY, meanZ := meanZ
    sdX := sq (sd.1 / (SAMPLES : ℚ))
    sdY := sq (sd.2.1 / (SAMPLES : ℚ))
    sdZ := sq (sd.2.2 / (SAMPLES : ℚ)) }

/-- Accumulator of the statistics loop on the display path
(`drawStatisticsScreen`, lines 1247-1259), including the `maxXYZ`/`minXYZ`
locals that loop also updates (their results are unused by the statistics). -/
structure DispAcc where
  minX : ℚ
  maxX : ℚ
  minY : ℚ
  maxY : ℚ
  minZ : ℚ
  maxZ : ℚ
  maxXYZ : ℚ
  minXYZ : ℚ
  sumX : ℚ
  sumY : ℚ
  sumZ : ℚ

/-- One iteration of the display-path statistics loop (lines 1247-1259). -/
def dispStep (a : DispAcc) (v : ℚ × ℚ × ℚ) : DispAcc :=
  let maxX := if a.maxX < v.1 then v.1 else a.maxX
  let minX := if v.1 < a.minX then v.1 else a.minX
  let maxY := if a.maxY < v.2.1 then v.2.1 else a.maxY
  let minY := if v.2.1 < a.minY then v.2.1 else a.minY
  let maxZ := if a.maxZ < v.2.2 then v.2.2 else a.maxZ
  let minZ := if v.2.2 < a.minZ then v.2.2 else a.minZ
  { minX := minX, maxX := maxX, minY := minY, maxY := maxY
    minZ := minZ, maxZ := maxZ
    maxXYZ := max (max maxX maxY) maxZ * 100
    minXYZ := min (min minX minY) minZ * 100
    sumX := a.sumX + v.1
    sumY := a.sumY + v.2.1
    sumZ := a.sumZ + v.2.2 }

/-- The statistics computation on the display path (`drawStatisticsScreen`,
lines 1232-1276): same sentinels, same mean and population-SD formulas. -/
def drawStatisticsScreenStats (sq : ℚ → ℚ) (xs ys zs : List ℚ) : CaptureStats :=
  let a := (zip3 xs ys zs).foldl dispStep
    ⟨9999, -9999, 9999, -9999, 9999, -9999, 0, 0, 0, 0, 0⟩
  let meanX := a.sumX / (SAMPLES : ℚ)
  let meanY := a.sumY / (SAMPLES : ℚ)
  let meanZ := a.sumZ / (SAMPLES : ℚ)
  let sd := (zip3 xs ys zs).foldl
    (fun (acc : ℚ × ℚ × ℚ) v =>
      (acc.1 + (v.1 - meanX) * (v.1 - meanX),
       acc.2.1 + (v.2.1 - meanY) * (v.2.1 - meanY),
       acc.2.2 + (v.2.2 - meanZ) * (v.2.2 - meanZ))) (0, 0, 0)
  { maxX := a.maxX, maxY := a.maxY, maxZ := a.maxZ
    minX := a.minX, minY := a.minY, minZ := a.minZ
    meanX := meanX, meanY := meanY, meanZ := meanZ
    sdX := sq (sd.1 / (SAMPLES : ℚ))
    sdY := sq (sd.2.1 / (SAMPLES : ℚ))
    sdZ := sq (sd.2.2 / (SAMPLES : ℚ)) }

/-! ## Save / load / export -/
/-- The metadata header assembled by `saveCurrentRecord` (lines 466-503):
`millis()` timestamp, the record-start RTC time, current sampling frequency
and peak frequencies, and the freshly computed statistics. -/
def mkRecordMeta (sq : ℚ → ℚ) (s : Sys) (now : Nat) : RecordMeta :=
  let cs := saveStats sq s.accXvec s.accYvec s.accZvec
  { timestamp := now, rtcTime := s.currentRecordTime
    samplingFreq := s.samplingFrequency
    peakX := s.xM, peakY := s.yM, peakZ := s.zM
    maxX := cs.maxX, maxY := cs.maxY, maxZ := cs.maxZ
    minX := cs.minX, minY := cs.minY, minZ := cs.minZ
    meanX := cs.meanX, meanY := cs.meanY, meanZ := cs.meanZ
    sdX := cs.sdX, sdY := cs.sdY, sdZ := cs.sdZ }

/-- The full record `saveCurrentRecord` persists: metadata plus the six
live buffers. -/
def mkRecord (sq : ℚ → ℚ) (s : Sys) (now : Nat) : Record :=
  ⟨mkRecordMeta sq s now, s.accXvec, s.accYvec, s.accZvec,
   s.vRealX, s.vRealY, s.vRealZ⟩

/-- Model of `saveCurrentRecord` (lines 443-540): ring bookkeeping, data-file write
(when `openOk`), global statistics update, cursor rewrite.  Returns the
`bool` result of the function. -/
def saveCurrentRecord (sq : ℚ → ℚ) (s : Sys) (now : Nat) (openOk : Bool) :
    Bool × Sys :=
  let p := storeAppend s.store (serializeRecord (mkRecord sq s now)) openOk
  if p.1 = false then (false, { s with store := p.2 })
  else
    let cs := saveStats sq s.accXvec s.accYvec s.accZvec
    (true,
      { s with
          store := p.2,
          maxV := (cs.maxX, cs.maxY, cs.maxZ),
          minV := (cs.minX, cs.minY, cs.minZ),
          meanV := (cs.meanX, cs.meanY, cs.meanZ),
          sdV := (cs.sdX, cs.sdY, cs.sdZ) })

/-- Model of `loadRecord` (lines 543-601): guard and clamp the logical index, open
the slot file, read metadata and the six arrays into the live globals, and
set the view index.  A missing or unreadable file returns `false` with the
state unchanged. -/
def loadRecord (s : Sys) (logicalIndex : Int) : Bool × Sys :=
  if s.store.storageReady = false ∨ logicalIndex < 0 ∨
     s.store.storedRecordCount = 0 then (false, s) else
  let li := if s.store.storedRecordCount ≤ logicalIndex
            then s.store.storedRecordCount - 1 else logicalIndex
  let fileIndex := (s.store.oldestRecordIndex + li).tmod MAX_RECORDS
  match s.store.files fileIndex with
  | none => (false, s)
  | some blob =>
    match deserializeRecord blob with
    | none => (false, s)
    | some r =>
      (true, { s with
        samplingFrequency := r.meta.samplingFreq
        xM := r.meta.peakX, yM := r.meta.peakY, zM := r.meta.peakZ
        currentRecordTime := r.meta.rtcTime
        maxV := (r.meta.maxX, r.meta.maxY, r.meta.maxZ)
        minV := (r.meta.minX, r.meta.minY, r.meta.minZ)
        meanV := (r.meta.meanX, r.meta.meanY, r.meta.meanZ)
        sdV := (r.meta.sdX, r.meta.sdY, r.meta.sdZ)
        accXvec := r.accXvec, accYvec := r.accYvec, accZvec := r.accZvec
        vRealX := r.vRealX, vRealY := r.vRealY, vRealZ := r.vRealZ
        currentViewRecord := li })

/-- The state effects of `exportAllRecordsSerial` (lines 655-724): remember
the view index and record time, load every stored record in logical order
(printing is external I/O), reload the viewed record only if one was being
viewed, then restore the view index and record time. -/
def exportAllRecordsSerial (s : Sys) : Sys :=
  let savedViewRecord := s.currentViewRecord
  let savedRecordTime := s.currentRecordTime
  let s1 := (List.range s.store.storedRecordCount.toNat).foldl
    (fun acc r => (loadRecord acc (Int.ofNat r)).2) s
  let s2 := if 0 ≤ savedViewRecord then (loadRecord s1 savedViewRecord).2 else s1
  { s2 with currentViewRecord := savedViewRecord,
            currentRecordTime := savedRecordTime }

/-! ## RTC time setting (`parseAndSetTime`) -/
/-- Whitespace as the Arduino `String::trim` / C `isspace` recognise it. -/
def isSpaceChar (c : Char) : Bool :=
  c == ' ' || c == '\t' || c == '\n' || c == '\x0d' || c == '\x0b' || c == '\x0c'

/-- Model of `String::trim`: strip leading and trailing whitespace. -/
def trimChars (l : List Char) : List Char :=
  ((l.dropWhile isSpaceChar).reverse.dropWhile isSpaceChar).reverse

/-- Model of `String::substring(a, b)`: characters at positions `a .. b-1`. -/
def substringChars (l : List Char) (a b : Nat) : List Char :=
  (l.drop a).take (b - a)

/-- Value of a maximal leading digit run. -/
def digitsVal (l : List Char) : Int :=
  (l.takeWhile Char.isDigit).foldl
    (fun acc c => acc * 10 + ((c.toNat : Int) - 48)) 0

/-- Arduino `String::toInt` = C `atol`: skip leading whitespace, optional
sign, then a (possibly empty) digit run; 0 when no digits. -/
def toIntChars (l : List Char) : Int :=
  match l.dropWhile isSpaceChar with
  | '-' :: rest => - digitsVal rest
  | '+' :: rest => digitsVal rest
  | l1 => digitsVal l1

/-- C assignment of an `int` to a `uint16_t`: reduce modulo 2^16. -/
def toUInt16Field (v : Int) : Nat := (v.emod 65536).toNat

/-- C assignment of an `int` to a `uint8_t`: reduce modulo 2^8. -/
def toUInt8Field (v : Int) : Nat := (v.emod 256).toNat

/-- The six field parses of `parseAndSetTime` (lines 197-215), with the C
narrowing conversions into the `RecordDateTime` struct fields. -/
def parseDateTimeFields (ts : List Char) : RecordDateTime :=
  { year := toUInt16Field (toIntChars (substringChars ts 0 4))
    month := toUInt8Field (toIntChars (substringChars ts 5 7))
    day := toUInt8Field (toIntChars (substringChars ts 8 10))
    hour := toUInt8Field (toIntChars (substringChars ts 11 13))
    minute := toUInt8Field (toIntChars (substringChars ts 14 16))
    second := toUInt8Field (toIntChars (substringChars ts 17 19)) }

/-- The accepted ranges of `parseAndSetTime` (lines 218-241). -/
def dtInRange (dt : RecordDateTime) : Prop :=
  2020 ≤ dt.year ∧ dt.year ≤ 2099 ∧ 1 ≤ dt.month ∧ dt.month ≤ 12 ∧
  1 ≤ dt.day ∧ dt.day ≤ 31 ∧ dt.hour ≤ 23 ∧ dt.minute ≤ 59 ∧ dt.second ≤ 59

instance (dt : RecordDateTime) : Decidable (dtInRange dt) := by
  unfold dtInRange; infer_instance

/-- Model of `parseAndSetTime` (lines 185-251): trim, length check, parse the six
fields, validate each range, and only then write the RTC.  Returns the
`bool` result and the resulting RTC clock value (`rtc` when rejected). -/
def parseAndSetTime (timeStr : List Char) (rtc : RecordDateTime) :
    Bool × RecordDateTime :=
  let ts := trimChars timeStr
  if ts.length < 19 then (false, rtc) else
  let dt := parseDateTimeFields ts
  if dt.year < 2020 ∨ 2099 < dt.year then (false, rtc) else
  if dt.month < 1 ∨ 12 < dt.month then (false, rtc) else
  if dt.day < 1 ∨ 31 < dt.day then (false, rtc) else
  if 23 < dt.hour then (false, rtc) else
  if 59 < dt.minute then (false, rtc) else
  if 59 < dt.second then (false, rtc) else
  (true, dt)

/-! ## Measured sampling frequency (`loop`, lines 960-967) -/
/-- Model of `dt`: the summed inter-sample timestamp deltas in microseconds
(lines 960-964); `t` is the timestamp array of the completed capture. -/
def sumDeltas (t : Nat → Int) : Int :=
  (List.range (SAMPLES - 1)).foldl (fun acc i => acc + (t (i + 1) - t i)) 0

/-- Model of `samplingFrequency` as computed in `loop` (lines 966-967):
`dts = (dt / (SAMPLES-1)) / 1e6; samplingFrequency = 1 / dts`. -/
def measuredSamplingFrequency (t : Nat → Int) : ℚ :=
  let dts : ℚ := ((sumDeltas t : ℚ) / ((SAMPLES : ℚ) - 1)) / 1000000
  1 / dts

/-- A uniform capture clocked at exactly 5 ms (5000 us) per sample. -/
def uniform5msTimestamps : Nat → Int := fun i => 5000 * (i : Int)

/-! ## Spectrogram builder (`computeSpectrogramFromRecord`, lines 761-813) -/
/-- Model of `SEG_LEN` (line 95): spectrogram window length. -/
def SEG_LEN : Nat := 128

/-- Model of `SEG_MAX` (line 97): maximum number of spectrogram segments. -/
def SEG_MAX : Nat := 17

/-- Model of `SPEC_BINS` (line 98): bins kept per segment. -/
def SPEC_BINS : Nat := SEG_LEN / 2

/-- Model of `overlapSamples` (lines 766-767): 50% of the window, clamped below the
window length. -/
def overlapSamples : Nat :=
  let o := SEG_LEN * 50 / 100
  if SEG_LEN ≤ o then SEG_LEN - 1 else o

/-- Model of `hop` (line 768): stride between consecutive segment starts. -/
def hop : Nat := SEG_LEN - overlapSamples

/-- The segment start offsets the `for` loop of
`computeSpectrogramFromRecord` visits (line 770): multiples of `hop` while
a full window fits in the `n` samples, at most `SEG_MAX` of them. -/
def segmentStarts (n : Nat) : List Nat :=
  ((List.range SEG_MAX).map (fun s => s * hop)).takeWhile
    (fun st => st + SEG_LEN ≤ n)

/-- Running minimum as the loop tracks it (`if (lv < specLogMin)`). -/
def minFold (l : List ℚ) : ℚ :=
  l.foldl (fun m v => if v < m then v else m) 1000000000

/-- Running maximum as the loop tracks it (`if (lv > specLogMax)`). -/
def maxFold (l : List ℚ) : ℚ :=
  l.foldl (fun m v => if m < v then v else m) (-1000000000)

/-- The spectrogram outputs: `specSegments`, `specLogMin`, `specLogMax` and
the `specMag` grid (lines 100-103). -/
structure SpectroState where
  specSegments : Nat
  specLogMin : ℚ
  specLogMax : ℚ
  specMag : Nat → Nat → ℚ

/-- The final range fix-ups of `computeSpectrogramFromRecord`
(lines 805-812): widen a span below 1e-3 to exactly 1e-3, then clamp a span
above 3 decades by raising the floor to `max - 3`. -/
def spectroRangeFixups (b : SpectroState) : SpectroState :=
  let w := if b.specLogMax - b.specLogMin < 1 / 1000
           then { b with specLogMax := b.specLogMin + 1 / 1000 }
           else b
  if 3 < w.specLogMax - w.specLogMin
  then { w with specLogMin := w.specLogMax - 3 }
  else w

/-- Model of `computeSpectrogramFromRecord` (lines 761-813), with the per-cell
log-magnitude pipeline (external arduinoFFT transform of the windowed
total-magnitude slice, floor at 1e-9, libm `log10f`) abstracted as the
function `lv : segment → bin → ℚ`; every property proved below holds for
all interpretations of that external pipeline.  `n` is the `SAMPLES`
compile-time constant the loop bound uses. -/
def computeSpectrogramFromRecord (n : Nat) (lv : Nat → Nat → ℚ) : SpectroState :=
  let s0 := (segmentStarts n).length
  let cells := ((List.range s0).map
    (fun s => (List.range SPEC_BINS).map (fun k => lv s k))).flatten
  let base : SpectroState :=
    if s0 = 0 then
      ⟨1, 0, 1, fun _ _ => 0⟩
    else
      ⟨s0, minFold cells, maxFold cells,
       fun s k => if s < s0 ∧ k < SPEC_BINS then lv s k else 0⟩
  spectroRangeFixups base

/-- The normalized cell value as `drawSpectrogramScreen` computes it
(lines 1619-1632): span floored at 1e-3, normalize, clamp to [0,1]. -/
def normCell (st : SpectroState) (s k : Nat) : ℚ :=
  let span := if st.specLogMax - st.specLogMin < 1 / 1000 then 1 / 1000
              else st.specLogMax - st.specLogMin
  let norm := (st.specMag s k - st.specLogMin) / span
  if norm < 0 then 0 else if 1 < norm then 1 else norm

/-! ## Concrete states used by witnesses and counterexamples -/
/-- An all-zero sample buffer. -/
def zeroBuf : List ℚ := List.replicate SAMPLES 0

/-- A concrete record metadata header. -/
def meta0 : RecordMeta :=
  ⟨0, ⟨2025, 1, 1, 0, 0, 0⟩, 200, 0, 0, 0, 0, 0, 0, 0, 0, 0, 0, 0, 0, 0, 0, 0⟩

/-- A concrete well-formed record. -/
def record0 : Record := ⟨meta0, zeroBuf, zeroBuf, zeroBuf, zeroBuf, zeroBuf, zeroBuf⟩

/-- A ready store holding exactly one record, in slot 0. -/
def store1 : StoreSt :=
  { storageReady := true, storedRecordCount := 1, oldestRecordIndex := 0,
    newestRecordIndex := 0,
    files := fun j => if j = 0 then some (serializeRecord record0) else none,
    cursorFile := some (1, 0, 0) }

/-- A concrete live system over the empty ready store, viewing live data. -/
def sys0 : Sys :=
  { store := initialStore true,
    accXvec := zeroBuf, accYvec := zeroBuf, accZvec := zeroBuf,
    vRealX := zeroBuf, vRealY := zeroBuf, vRealZ := zeroBuf,
    samplingFrequency := 200, xM := 20, yM := 0, zM := 0,
    maxV := (0, 0, 0), minV := (0, 0, 0), meanV := (0, 0, 0), sdV := (0, 0, 0),
    currentRecordTime := ⟨2025, 1, 1, 0, 0, 0⟩, currentViewRecord := -1 }

/-- A concrete live system over `store1`, viewing live data. -/
def sys1 : Sys := { sys0 with store := store1 }

/-! ## Statistics: the two sites compute the same values -/
/-- Forget the display loop's extra `maxXYZ`/`minXYZ` accumulators. -/
def projDisp (a : DispAcc) : StatAcc :=
  ⟨a.maxX, a.maxY, a.maxZ, a.minX, a.minY, a.minZ, a.sumX, a.sumY, a.sumZ⟩

/-! ## RTC time validation -/
/-- A concrete RTC clock value. -/
def rtc0 : RecordDateTime := ⟨2024, 6, 1, 12, 0, 0⟩

/-- A wall-clock string with an out-of-range month. -/
def badTimeStr : List Char := "2025-13-15 14:30:00".toList

/-! ## On-disk record layout -/
/-- The actual record-file layout: metadata header, then the raw capture as
3×`SAMPLES` floats, then the spectra as 3×`SAMPLES` floats (the full FFT
output buffers, not 3×`SAMPLES/2`), with no length framing. -/
def recordFileLayoutSpec (r : Record) : Prop :=
  serializeRecord r =
    serializeMeta r.meta ++ ((r.accXvec ++ r.accYvec ++ r.accZvec).map Val.f) ++
    ((r.vRealX ++ r.vRealY ++ r.vRealZ).map Val.f) ∧
  ((r.accXvec ++ r.accYvec ++ r.accZvec).map Val.f).length = 3 * SAMPLES ∧
  ((r.vRealX ++ r.vRealY ++ r.vRealZ).map Val.f).length = 3 * SAMPLES

/-! ## Failed data write and the cursor record -/
/-- What actually happens when `saveCurrentRecord` cannot open the data
file: the function returns false, the persisted cursor record and the data
files are untouched — but the in-memory ring bookkeeping has ALREADY been
advanced (newest always, and either count or oldest).  When the write
succeeds, the cursor record is rewritten with the new cursors. -/
def saveFailedWriteSpec (sq : ℚ → ℚ) (s : Sys) (now : Nat) : Prop :=
  ((saveCurrentRecord sq s now false).1 = false ∧
   (saveCurrentRecord sq s now false).2.store.cursorFile = s.store.cursorFile ∧
   (∀ j, (saveCurrentRecord sq s now false).2.store.files j = s.store.files j) ∧
   (saveCurrentRecord sq s now false).2.store.newestRecordIndex =
     (s.store.newestRecordIndex + 1).tmod MAX_RECORDS ∧
   (MAX_RECORDS ≤ s.store.storedRecordCount →
     (saveCurrentRecord sq s now false).2.store.storedRecordCount =
       s.store.storedRecordCount ∧
     (saveCurrentRecord sq s now false).2.store.oldestRecordIndex =
       (s.store.oldestRecordIndex + 1).tmod MAX_RECORDS) ∧
   (s.store.storedRecordCount < MAX_RECORDS →
     (saveCurrentRecord sq s now false).2.store.storedRecordCount =
       s.store.storedRecordCount + 1 ∧
     (saveCurrentRecord sq s now false).2.store.oldestRecordIndex =
       s.store.oldestRecordIndex)) ∧
  ((saveCurrentRecord sq s now true).1 = true ∧
   (saveCurrentRecord sq s now true).2.store.cursorFile =
     some ((saveCurrentRecord sq s now true).2.store.storedRecordCount,
           (saveCurrentRecord sq s now true).2.store.oldestRecordIndex,
           (saveCurrentRecord sq s now true).2.store.newestRecordIndex))

/-- Appending a sequence of serialized records to the store, each with a
successful data write (the repeated `saveCurrentRecord` ring bookkeeping). -/
def appendAll (blobs : List (List Val)) : StoreSt :=
  blobs.foldl (fun st b => (storeAppend st b true).2) (initialStore true)

/-- Thirty-one distinguishable record files. -/
def blobs31 : List (List Val) := (List.range 31).map (fun i => [Val.n i])

/-- The round-trip property: a successful save followed by a read of the
newest logical index recovers every stored datum bit-identically. -/
def roundTripSpec (sq : ℚ → ℚ) (s : Sys) (now : Nat) : Prop :=
  (saveCurrentRecord sq s now true).1 = true ∧
  readLogical (saveCurrentRecord sq s now true).2.store
      ((saveCurrentRecord sq s now true).2.store.storedRecordCount - 1) =
    some (serializeRecord (mkRecord sq s now)) ∧
  deserializeRecord (serializeRecord (mkRecord sq s now)) =
    some (mkRecord sq s now) ∧
  (loadRecord (saveCurrentRecord sq s now true).2
      ((saveCurrentRecord sq s now true).2.store.storedRecordCount - 1)).1 =
    true ∧
  ((loadRecord (saveCurrentRecord sq s now true).2
      ((saveCurrentRecord sq s now true).2.store.storedRecordCount - 1)).2.accXvec
     = s.accXvec ∧
   (loadRecord (saveCurrentRecord sq s now true).2
      ((saveCurrentRecord sq s now true).2.store.storedRecordCount - 1)).2.accYvec
     = s.accYvec ∧
   (loadRecord (saveCurrentRecord sq s now true).2
      ((saveCurrentRecord sq s now true).2.store.storedRecordCount - 1)).2.accZvec
     = s.accZvec ∧
   (loadRecord (saveCurrentRecord sq s now true).2
      ((saveCurrentRecord sq s now true).2.store.storedRecordCount - 1)).2.vRealX
     = s.vRealX ∧
   (loadRecord (saveCurrentRecord sq s now true).2
      ((saveCurrentRecord sq s now true).2.store.storedRecordCount - 1)).2.vRealY
     = s.vRealY ∧
   (loadRecord (saveCurrentRecord sq s now true).2
      ((saveCurrentRecord sq s now true).2.store.storedRecordCount - 1)).2.vRealZ
     = s.vRealZ ∧
   (loadRecord (saveCurrentRecord sq s now true).2
      ((saveCurrentRecord sq s now true).2.store.storedRecordCount - 1)).2.samplingFrequency
     = s.samplingFrequency ∧
   (loadRecord (saveCurrentRecord sq s now true).2
      ((saveCurrentRecord sq s now true).2.store.storedRecordCount - 1)).2.xM
     = s.xM ∧
   (loadRecord (saveCurrentRecord sq s now true).2
      ((saveCurrentRecord sq s now true).2.store.storedRecordCount - 1)).2.yM
     = s.yM ∧
   (loadRecord (saveCurrentRecord sq s now true).2
      ((saveCurrentRecord sq s now true).2.store.storedRecordCount - 1)).2.zM
     = s.zM ∧
   (loadRecord (saveCurrentRecord sq s now true).2
      ((saveCurrentRecord sq s now true).2.store.storedRecordCount - 1)).2.currentRecordTime
     = s.currentRecordTime ∧
   (loadRecord (saveCurrentRecord sq s now true).2
      ((saveCurrentRecord sq s now true).2.store.storedRecordCount - 1)).2.maxV
     = (saveCurrentRecord sq s now true).2.maxV ∧
   (loadRecord (saveCurrentRecord sq s now true).2
      ((saveCurrentRecord sq s now true).2.store.storedRecordCount - 1)).2.minV
     = (saveCurrentRecord sq s now true).2.minV ∧
   (loadRecord (saveCurrentRecord sq s now true).2
      ((saveCurrentRecord sq s now true).2.store.storedRecordCount - 1)).2.meanV
     = (saveCurrentRecord sq s now true).2.meanV ∧
   (loadRecord (saveCurrentRecord sq s now true).2
      ((saveCurrentRecord sq s now true).2.store.storedRecordCount - 1)).2.sdV
     = (saveCurrentRecord sq s now true).2.sdV)

/-- After a bulk export started while viewing live data, the view is still
live and the record time is restored, but the shared working buffers hold
the data of the last exported record. -/
def exportLiveSpec (s : Sys) (lastRec : Record) : Prop :=
  (exportAllRecordsSerial s).currentViewRecord = -1 ∧
  (exportAllRecordsSerial s).currentRecordTime = s.currentRecordTime ∧
  (exportAllRecordsSerial s).accXvec = lastRec.accXvec ∧
  (exportAllRecordsSerial s).accYvec = lastRec.accYvec ∧
  (exportAllRecordsSerial s).accZvec = lastRec.accZvec ∧
  (exportAllRecordsSerial s).vRealX = lastRec.vRealX ∧
  (exportAllRecordsSerial s).vRealY = lastRec.vRealY ∧
  (exportAllRecordsSerial s).vRealZ = lastRec.vRealZ

/-! ## Theorems -/

theorem readFloats_map_append (l : List ℚ) (rest : List Val) :
    readFloats l.length (l.map Val.f ++ rest) = some (l, rest) := by
  induction l with
  | nil => rfl
  | cons q l ih => simp [readFloats, ih]

theorem readFloats_map_append' (n : Nat) (l : List ℚ) (rest : List Val)
    (h : l.length = n) :
    readFloats n (l.map Val.f ++ rest) = some (l, rest) :=
  h ▸ readFloats_map_append l rest

theorem readFloats_map' (n : Nat) (l : List ℚ) (h : l.length = n) :
    readFloats n (l.map Val.f) = some (l, []) := by
  have := readFloats_map_append' n l [] h
  simpa using this

theorem deserializeMeta_serializeMeta (m : RecordMeta) (rest : List Val) :
    deserializeMeta (serializeMeta m ++ rest) = some (m, rest) := by
  rfl

/-- Round trip: a well-formed record written by the save path is read back
bit-identically by the load path. -/
theorem deserializeRecord_serializeRecord (r : Record) (h : r.wf) :
    deserializeRecord (serializeRecord r) = some r := by
  obtain ⟨h1, h2, h3, h4, h5, h6⟩ := h
  simp only [serializeRecord, deserializeRecord, List.append_assoc,
    deserializeMeta_serializeMeta,
    readFloats_map_append' _ _ _ h1, readFloats_map_append' _ _ _ h2,
    readFloats_map_append' _ _ _ h3, readFloats_map_append' _ _ _ h4,
    readFloats_map_append' _ _ _ h5, readFloats_map' _ _ h6]

theorem projDisp_dispStep (a : DispAcc) (v : ℚ × ℚ × ℚ) :
    projDisp (dispStep a v) = statStep (projDisp a) v := rfl

theorem projDisp_foldl (l : List (ℚ × ℚ × ℚ)) (a : DispAcc) :
    projDisp (l.foldl dispStep a) = l.foldl statStep (projDisp a) := by
  induction l generalizing a with
  | nil => rfl
  | cons v l ih => simp only [List.foldl_cons, ih, projDisp_dispStep]

/-- C6: the statistics computed by the display path equal those computed by
the save path, for every capture and every interpretation of `sqrtf`. -/
theorem claim6_theorem (sq : ℚ → ℚ) (xs ys zs : List ℚ) :
    drawStatisticsScreenStats sq xs ys zs = saveStats sq xs ys zs := by
  have h : projDisp ((zip3 xs ys zs).foldl dispStep
      ⟨9999, -9999, 9999, -9999, 9999, -9999, 0, 0, 0, 0, 0⟩) =
      (zip3 xs ys zs).foldl statStep
      ⟨-9999, -9999, -9999, 9999, 9999, 9999, 0, 0, 0⟩ :=
    projDisp_foldl (zip3 xs ys zs) _
  have e1 : ((zip3 xs ys zs).foldl dispStep
      ⟨9999, -9999, 9999, -9999, 9999, -9999, 0, 0, 0, 0, 0⟩).maxX =
      ((zip3 xs ys zs).foldl statStep
      ⟨-9999, -9999, -9999, 9999, 9999, 9999, 0, 0, 0⟩).maxX :=
    congrArg StatAcc.maxX h
  have e2 : ((zip3 xs ys zs).foldl dispStep
      ⟨9999, -9999, 9999, -9999, 9999, -9999, 0, 0, 0, 0, 0⟩).maxY =
      ((zip3 xs ys zs).foldl statStep
      ⟨-9999, -9999, -9999, 9999, 9999, 9999, 0, 0, 0⟩).maxY :=
    congrArg StatAcc.maxY h
  have e3 : ((zip3 xs ys zs).foldl dispStep
      ⟨9999, -9999, 9999, -9999, 9999, -9999, 0, 0, 0, 0, 0⟩).maxZ =
      ((zip3 xs ys zs).foldl statStep
      ⟨-9999, -9999, -9999, 9999, 9999, 9999, 0, 0, 0⟩).maxZ :=
    congrArg StatAcc.maxZ h
  have e4 : ((zip3 xs ys zs).foldl dispStep
      ⟨9999, -9999, 9999, -9999, 9999, -9999, 0, 0, 0, 0, 0⟩).minX =
      ((zip3 xs ys zs).foldl statStep
      ⟨-9999, -9999, -9999, 9999, 9999, 9999, 0, 0, 0⟩).minX :=
    congrArg StatAcc.minX h
  have e5 : ((zip3 xs ys zs).foldl dispStep
      ⟨9999, -9999, 9999, -9999, 9999, -9999, 0, 0, 0, 0, 0⟩).minY =
      ((zip3 xs ys zs).foldl statStep
      ⟨-9999, -9999, -9999, 9999, 9999, 9999, 0, 0, 0⟩).minY :=
    congrArg StatAcc.minY h
  have e6 : ((zip3 xs ys zs).foldl dispStep
      ⟨9999, -9999, 9999, -9999, 9999, -9999, 0, 0, 0, 0, 0⟩).minZ =
      ((zip3 xs ys zs).foldl statStep
      ⟨-9999, -9999, -9999, 9999, 9999, 9999, 0, 0, 0⟩).minZ :=
    congrArg StatAcc.minZ h
  have e7 : ((zip3 xs ys zs).foldl dispStep
      ⟨9999, -9999, 9999, -9999, 9999, -9999, 0, 0, 0, 0, 0⟩).sumX =
      ((zip3 xs ys zs).foldl statStep
      ⟨-9999, -9999, -9999, 9999, 9999, 9999, 0, 0, 0⟩).sumX :=
    congrArg StatAcc.sumX h
  have e8 : ((zip3 xs ys zs).foldl dispStep
      ⟨9999, -9999, 9999, -9999, 9999, -9999, 0, 0, 0, 0, 0⟩).sumY =
      ((zip3 xs ys zs).foldl statStep
      ⟨-9999, -9999, -9999, 9999, 9999, 9999, 0, 0, 0⟩).sumY :=
    congrArg StatAcc.sumY h
  have e9 : ((zip3 xs ys zs).foldl dispStep
      ⟨9999, -9999, 9999, -9999, 9999, -9999, 0, 0, 0, 0, 0⟩).sumZ =
      ((zip3 xs ys zs).foldl statStep
      ⟨-9999, -9999, -9999, 9999, 9999, 9999, 0, 0, 0⟩).sumZ :=
    congrArg StatAcc.sumZ h
  unfold drawStatisticsScreenStats saveStats
  dsimp only
  simp only [e1, e2, e3, e4, e5, e6, e7, e8, e9]

/-! ## Measured sampling frequency -/
theorem foldl_deltas_telescope (t : Nat → Int) (n : Nat) :
    (List.range n).foldl (fun acc i => acc + (t (i + 1) - t i)) 0 = t n - t 0 := by
  induction n with
  | zero => simp
  | succ n ih => rw [List.range_succ, List.foldl_append, ih]; simp

/-- The summed deltas telescope to `t[SAMPLES-1] - t[0]`. -/
theorem sumDeltas_telescope (t : Nat → Int) :
    sumDeltas t = t (SAMPLES - 1) - t 0 := by
  unfold sumDeltas
  exact foldl_deltas_telescope t (SAMPLES - 1)

theorem sumDeltas_uniform5ms : sumDeltas uniform5msTimestamps = 5115000 := by
  rw [sumDeltas_telescope]
  norm_num [uniform5msTimestamps, SAMPLES]

/-- C7: the measured sampling frequency equals `(SAMPLES-1)` divided by the
summed inter-sample deltas in seconds, and a uniform 5 ms capture measures
exactly 200 Hz. -/
theorem claim7_theorem (t : Nat → Int) (h : sumDeltas t ≠ 0) :
    measuredSamplingFrequency t =
      ((SAMPLES : ℚ) - 1) / ((sumDeltas t : ℚ) / 1000000) ∧
    measuredSamplingFrequency uniform5msTimestamps = 200 := by
  constructor
  · have hd : (sumDeltas t : ℚ) ≠ 0 := Int.cast_ne_zero.mpr h
    unfold measuredSamplingFrequency
    show (1 : ℚ) / ((sumDeltas t : ℚ) / ((SAMPLES : ℚ) - 1) / 1000000) = _
    rw [show ((SAMPLES : ℚ) - 1) = 1023 by norm_num [SAMPLES]]
    field_simp
  · unfold measuredSamplingFrequency
    rw [sumDeltas_uniform5ms]
    norm_num [SAMPLES]

/-- C7 witness: the uniform 5 ms capture has a non-zero delta sum and
measures exactly 200 Hz. -/
theorem claim7_witness :
    sumDeltas uniform5msTimestamps ≠ 0 ∧
    measuredSamplingFrequency uniform5msTimestamps = 200 :=
  ⟨by simp [sumDeltas_uniform5ms],
   (claim7_theorem uniform5msTimestamps (by simp [sumDeltas_uniform5ms])).2⟩

/-- C9: `parseAndSetTime` leaves the clock unchanged whenever it returns
`false`; it returns `true` exactly when the trimmed string is long enough
and every parsed field is in the accepted ranges; on success the clock is
set to the parsed fields; and any input shorter than 19 characters is
rejected. -/
theorem claim9_theorem (s : List Char) (rtc : RecordDateTime) :
    ((parseAndSetTime s rtc).1 = false → (parseAndSetTime s rtc).2 = rtc) ∧
    ((parseAndSetTime s rtc).1 = true ↔
      19 ≤ (trimChars s).length ∧ dtInRange (parseDateTimeFields (trimChars s))) ∧
    ((parseAndSetTime s rtc).1 = true →
      (parseAndSetTime s rtc).2 = parseDateTimeFields (trimChars s)) ∧
    (s.length < 19 → (parseAndSetTime s rtc).1 = false) := by
  have hlen : (trimChars s).length ≤ s.length := by
    unfold trimChars
    calc ((s.dropWhile isSpaceChar).reverse.dropWhile isSpaceChar).reverse.length
        = ((s.dropWhile isSpaceChar).reverse.dropWhile isSpaceChar).length := by
          rw [List.length_reverse]
      _ ≤ (s.dropWhile isSpaceChar).reverse.length :=
          (List.dropWhile_sublist _).length_le
      _ = (s.dropWhile isSpaceChar).length := by rw [List.length_reverse]
      _ ≤ s.length := (List.dropWhile_sublist _).length_le
  unfold parseAndSetTime dtInRange
  dsimp only
  split_ifs with h1 h2 h3 h4 h5 h6 h7
  all_goals simp_all
  all_goals omega

/-- C9 witness: a string with month 13 is rejected and the clock keeps its
old value. -/
theorem claim9_witness :
    (parseAndSetTime badTimeStr rtc0).1 = false ∧
    (parseAndSetTime badTimeStr rtc0).2 = rtc0 := by
  have h := claim9_theorem badTimeStr rtc0
  have hno : ¬(19 ≤ (trimChars badTimeStr).length ∧
      dtInRange (parseDateTimeFields (trimChars badTimeStr))) := by decide
  have hfalse : (parseAndSetTime badTimeStr rtc0).1 = false := by
    cases hb : (parseAndSetTime badTimeStr rtc0).1
    · rfl
    · exact absurd (h.2.1.mp hb) hno
  exact ⟨hfalse, h.1 hfalse⟩

/-! ## Spectrogram builder properties -/
theorem spectroRangeFixups_specSegments (b : SpectroState) :
    (spectroRangeFixups b).specSegments = b.specSegments := by
  unfold spectroRangeFixups
  dsimp only
  split_ifs <;> rfl

theorem spectroRangeFixups_specMag (b : SpectroState) :
    (spectroRangeFixups b).specMag = b.specMag := by
  unfold spectroRangeFixups
  dsimp only
  split_ifs <;> rfl

theorem spectroRangeFixups_span (b : SpectroState) :
    0 < (spectroRangeFixups b).specLogMax - (spectroRangeFixups b).specLogMin ∧
    (spectroRangeFixups b).specLogMax - (spectroRangeFixups b).specLogMin ≤ 3 := by
  unfold spectroRangeFixups
  dsimp only
  split_ifs with h1 h2 h3 <;> constructor <;> simp_all <;> linarith

theorem spectroRangeFixups_of_unit (b : SpectroState)
    (h1 : b.specLogMin = 0) (h2 : b.specLogMax = 1) :
    spectroRangeFixups b = b := by
  unfold spectroRangeFixups
  dsimp only
  have hc1 : ¬(b.specLogMax - b.specLogMin < 1 / 1000) := by
    rw [h1, h2]; norm_num
  rw [if_neg hc1]
  have hc2 : ¬((3 : ℚ) < b.specLogMax - b.specLogMin) := by
    rw [h1, h2]; norm_num
  rw [if_neg hc2]

theorem segmentStarts_eq_nil (n : Nat) (h : n < SEG_LEN) :
    segmentStarts n = [] := by
  unfold segmentStarts
  have hlist : (List.range SEG_MAX).map (fun s => s * hop) =
      [0, 64, 128, 192, 256, 320, 384, 448, 512, 576,
       640, 704, 768, 832, 896, 960, 1024] := by decide
  rw [hlist]
  apply List.takeWhile_cons_of_neg
  simp only [SEG_LEN] at h ⊢
  simp
  omega

theorem segmentStarts_length_le (n : Nat) :
    (segmentStarts n).length ≤ SEG_MAX := by
  unfold segmentStarts
  calc (((List.range SEG_MAX).map (fun s => s * hop)).takeWhile
          (fun st => st + SEG_LEN ≤ n)).length
      ≤ ((List.range SEG_MAX).map (fun s => s * hop)).length :=
        (List.takeWhile_sublist _).length_le
    _ = SEG_MAX := by simp

theorem normCell_bounds (st : SpectroState) (s k : Nat) :
    0 ≤ normCell st s k ∧ normCell st s k ≤ 1 := by
  unfold normCell
  dsimp only
  split_ifs <;> constructor <;> linarith

/-- C8: the spectrogram builder always produces between 1 and `SEG_MAX`
segments; when no full window fits it synthesizes one all-zero segment with
range [0,1]; the clamped log span always lies in (0, 3] decades; and every
normalized cell value lies in [0,1] — for every capture length and every
interpretation of the external FFT/log pipeline. -/
theorem claim8_theorem (n : Nat) (lv : Nat → Nat → ℚ) :
    (1 ≤ (computeSpectrogramFromRecord n lv).specSegments ∧
     (computeSpectrogramFromRecord n lv).specSegments ≤ SEG_MAX) ∧
    (0 < (computeSpectrogramFromRecord n lv).specLogMax -
         (computeSpectrogramFromRecord n lv).specLogMin ∧
     (computeSpectrogramFromRecord n lv).specLogMax -
         (computeSpectrogramFromRecord n lv).specLogMin ≤ 3) ∧
    (n < SEG_LEN →
      (computeSpectrogramFromRecord n lv).specSegments = 1 ∧
      (computeSpectrogramFromRecord n lv).specLogMin = 0 ∧
      (computeSpectrogramFromRecord n lv).specLogMax = 1 ∧
      ∀ s k, (computeSpectrogramFromRecord n lv).specMag s k = 0) ∧
    (∀ s k, 0 ≤ normCell (computeSpectrogramFromRecord n lv) s k ∧
            normCell (computeSpectrogramFromRecord n lv) s k ≤ 1) := by
  refine ⟨?_, ?_, ?_, fun s k => normCell_bounds _ s k⟩
  · unfold computeSpectrogramFromRecord
    dsimp only
    rw [spectroRangeFixups_specSegments]
    split_ifs with h
    · constructor <;> norm_num [SEG_MAX]
    · dsimp only
      constructor
      · omega
      · exact segmentStarts_length_le n
  · unfold computeSpectrogramFromRecord
    dsimp only
    exact spectroRangeFixups_span _
  · intro h
    unfold computeSpectrogramFromRecord
    dsimp only
    rw [segmentStarts_eq_nil n h]
    simp only [List.length_nil, if_pos rfl]
    rw [spectroRangeFixups_of_unit _ rfl rfl]
    refine ⟨rfl, rfl, rfl, fun s k => rfl⟩

/-- C8 witness: a 100-sample capture is shorter than one window, so exactly
one all-zero segment with range [0,1] is synthesized. -/
theorem claim8_witness :
    100 < SEG_LEN ∧
    ((computeSpectrogramFromRecord 100 (fun _ _ => 0)).specSegments = 1 ∧
     (computeSpectrogramFromRecord 100 (fun _ _ => 0)).specLogMin = 0 ∧
     (computeSpectrogramFromRecord 100 (fun _ _ => 0)).specLogMax = 1 ∧
     ∀ s k, (computeSpectrogramFromRecord 100 (fun _ _ => 0)).specMag s k = 0) :=
  ⟨by decide, (claim8_theorem 100 (fun _ _ => 0)).2.2.1 (by decide)⟩

/-! ## Read-by-logical-index: guards and clamping -/
/-- C1 (amended): `loadRecord` fails with the state unchanged when storage
is not ready, the index is negative or the store is empty; but for an index
at or beyond `count` (store non-empty) it does NOT fail: it clamps the
index to `count - 1` and behaves exactly like a read of the newest record. -/
theorem claim1_amended (s : Sys) (i : Int) :
    ((s.store.storageReady = false ∨ i < 0 ∨ s.store.storedRecordCount = 0) →
      loadRecord s i = (false, s)) ∧
    (s.store.storageReady = true → 0 < s.store.storedRecordCount →
      s.store.storedRecordCount ≤ i →
      loadRecord s i = loadRecord s (s.store.storedRecordCount - 1)) := by
  constructor
  · intro h
    unfold loadRecord
    rw [if_pos h]
  · intro hr hc hi
    unfold loadRecord
    have hg1 : ¬(s.store.storageReady = false ∨ i < 0 ∨
        s.store.storedRecordCount = 0) := by
      push_neg
      refine ⟨by simp [hr], by omega, by omega⟩
    have hg2 : ¬(s.store.storageReady = false ∨
        s.store.storedRecordCount - 1 < 0 ∨
        s.store.storedRecordCount = 0) := by
      push_neg
      refine ⟨by simp [hr], by omega, by omega⟩
    rw [if_neg hg1, if_neg hg2]
    have hcl1 : (if s.store.storedRecordCount ≤ i
        then s.store.storedRecordCount - 1 else i) =
        s.store.storedRecordCount - 1 := if_pos hi
    have hcl2 : (if s.store.storedRecordCount ≤ s.store.storedRecordCount - 1
        then s.store.storedRecordCount - 1 else s.store.storedRecordCount - 1) =
        s.store.storedRecordCount - 1 := by
      split_ifs <;> rfl
    dsimp only
    rw [hcl1, hcl2]

/-- C1 counterexample: on a store holding one record, `loadRecord 5`
(index well beyond `count`) SUCCEEDS — returning the newest record — where
the claim says it must fail with NotFound. -/
theorem claim1_counterexample : (loadRecord sys1 5).1 = true := by
  have hwf : record0.wf := by
    refine ⟨?_, ?_, ?_, ?_, ?_, ?_⟩ <;> simp [record0, zeroBuf]
  have hrt := deserializeRecord_serializeRecord record0 hwf
  unfold loadRecord
  have hg : ¬(sys1.store.storageReady = false ∨ (5 : Int) < 0 ∨
      sys1.store.storedRecordCount = 0) := by
    simp [sys1, sys0, store1]
  rw [if_neg hg]
  have hcl : (if sys1.store.storedRecordCount ≤ (5 : Int)
      then sys1.store.storedRecordCount - 1 else (5 : Int)) = 0 := by
    simp [sys1, sys0, store1]
  dsimp only
  rw [hcl]
  have hfile : sys1.store.files ((sys1.store.oldestRecordIndex + 0).tmod MAX_RECORDS) =
      some (serializeRecord record0) := by
    simp [sys1, sys0, store1, MAX_RECORDS]
  rw [hfile]
  simp only [hrt]

/-- C1 witness: the clamping branch of the amended theorem, exercised on a
store holding one record with logical index 5. -/
theorem claim1_witness :
    sys1.store.storageReady = true ∧ 0 < sys1.store.storedRecordCount ∧
    sys1.store.storedRecordCount ≤ 5 ∧
    loadRecord sys1 5 = loadRecord sys1 (sys1.store.storedRecordCount - 1) :=
  ⟨rfl, by decide, by decide,
   (claim1_amended sys1 5).2 rfl (by decide) (by decide)⟩

/-- C2 (amended): every well-formed record is laid out on disk as the
fixed metadata header, immediately followed by the raw capture as
3×SAMPLES floats, followed by the spectra as 3×SAMPLES floats (the code
writes the full `vReal` arrays, not the first half), with no framing. -/
theorem claim2_amended (r : Record) (h : r.wf) : recordFileLayoutSpec r := by
  obtain ⟨h1, h2, h3, h4, h5, h6⟩ := h
  unfold recordFileLayoutSpec
  refine ⟨?_, ?_, ?_⟩
  · simp [serializeRecord, List.map_append, List.append_assoc]
  · simp [h1, h2, h3]; ring
  · simp [h4, h5, h6]; ring

/-- C2 counterexample: the file written for a concrete record does not have
the 3×(SAMPLES/2)-float spectra section the claim describes — its total
word count is header + 6×SAMPLES, not header + 3×SAMPLES + 3×(SAMPLES/2). -/
theorem claim2_counterexample :
    (serializeRecord record0).length ≠
      (serializeMeta record0.meta).length + 3 * SAMPLES + 3 * (SAMPLES / 2) := by
  have hz : zeroBuf.length = SAMPLES := by simp [zeroBuf]
  have hm : (serializeMeta record0.meta).length = 23 := rfl
  have hlen : (serializeRecord record0).length = 23 + 6 * SAMPLES := by
    unfold serializeRecord
    simp only [List.length_append, List.length_map, hm]
    simp only [record0]
    rw [hz]
    ring
  rw [hlen, hm]
  norm_num [SAMPLES]

/-- C2 witness: the amended layout at the concrete record. -/
theorem claim2_witness : record0.wf ∧ recordFileLayoutSpec record0 :=
  ⟨by refine ⟨?_, ?_, ?_, ?_, ?_, ?_⟩ <;> simp [record0, zeroBuf],
   claim2_amended record0
     (by refine ⟨?_, ?_, ?_, ?_, ?_, ?_⟩ <;> simp [record0, zeroBuf])⟩

/-- C3 (amended): on a failed data write the persisted cursor record and
data files are unchanged (the cursor is rewritten only after a successful
data write) but, contrary to the claim, the in-memory ring bookkeeping
(count, oldestSlot, newestSlot) has already been advanced. -/
theorem claim3_amended (sq : ℚ → ℚ) (s : Sys) (now : Nat)
    (hr : s.store.storageReady = true) : saveFailedWriteSpec sq s now := by
  unfold saveFailedWriteSpec saveCurrentRecord storeAppend
  simp only [hr, Bool.true_eq_false, if_false, ite_false, ite_true]
  split_ifs with hevict
  all_goals simp_all

/-- C3 counterexample: with an empty ready store, a failed data write still
increments the in-memory record count (0 becomes 1) — the ring bookkeeping
is NOT left unchanged. -/
theorem claim3_counterexample :
    (saveCurrentRecord id sys0 0 false).2.store.storedRecordCount ≠
      sys0.store.storedRecordCount := by
  simp [saveCurrentRecord, storeAppend, sys0, initialStore, MAX_RECORDS]

/-- C3 witness: the amended behaviour at the concrete empty ready store. -/
theorem claim3_witness :
    sys0.store.storageReady = true ∧ saveFailedWriteSpec id sys0 0 :=
  ⟨rfl, claim3_amended id sys0 0 rfl⟩

/-! ## Ring bookkeeping: append transitions and eviction -/
/-- Taking `Int.tmod` by the capacity is the identity on in-range cursors. -/
theorem tmod30_small (a : Int) (h0 : 0 ≤ a) (h1 : a < 30) : a.tmod 30 = a := by
  rw [Int.tmod_eq_emod h0 (by norm_num)]
  exact Int.emod_eq_of_lt h0 h1

theorem appendAll_go (blobs : List (List Val)) :
    ∀ (st : StoreSt) (k : Int),
    st.storageReady = true → st.storedRecordCount = k →
    st.oldestRecordIndex = 0 → st.newestRecordIndex = k - 1 →
    0 ≤ k → k + blobs.length ≤ 30 →
    (blobs.foldl (fun a b => (storeAppend a b true).2) st).storageReady = true ∧
    (blobs.foldl (fun a b => (storeAppend a b true).2) st).storedRecordCount =
      k + blobs.length ∧
    (blobs.foldl (fun a b => (storeAppend a b true).2) st).oldestRecordIndex = 0 ∧
    (blobs.foldl (fun a b => (storeAppend a b true).2) st).newestRecordIndex =
      k + blobs.length - 1 ∧
    ∀ j : Int, (blobs.foldl (fun a b => (storeAppend a b true).2) st).files j =
      if k ≤ j ∧ j < k + blobs.length then some (blobs.getD (j - k).toNat [])
      else st.files j := by
  induction blobs with
  | nil =>
    intro st k h1 h2 h3 h4 h5 h6
    refine ⟨h1, by simpa using h2, h3, by simpa using h4, ?_⟩
    intro j
    rw [if_neg]
    · rfl
    · simp only [List.length_nil, Nat.cast_zero, add_zero]
      omega
  | cons b bs ih =>
    intro st k h1 h2 h3 h4 h5 h6
    have hlc : ((b :: bs).length : Int) = (bs.length : Int) + 1 := by
      simp only [List.length_cons]; push_cast; ring
    have hk30 : k < 30 := by omega
    have hev : ¬(MAX_RECORDS ≤ st.storedRecordCount) := by
      rw [h2]; simp only [MAX_RECORDS]; omega
    have e_ready : ((storeAppend st b true).2).storageReady = true := by
      unfold storeAppend
      rw [if_neg (by simp [h1]), if_neg (by simp)]
      simpa using h1
    have e_cnt : ((storeAppend st b true).2).storedRecordCount = k + 1 := by
      unfold storeAppend
      rw [if_neg (by simp [h1]), if_neg (by simp)]
      dsimp only
      rw [if_neg hev, h2]
    have e_old : ((storeAppend st b true).2).oldestRecordIndex = 0 := by
      unfold storeAppend
      rw [if_neg (by simp [h1]), if_neg (by simp)]
      dsimp only
      rw [if_neg hev, h3]
    have e_new : ((storeAppend st b true).2).newestRecordIndex = k := by
      unfold storeAppend
      rw [if_neg (by simp [h1]), if_neg (by simp)]
      dsimp only
      rw [h4, show k - 1 + 1 = k by ring]
      exact tmod30_small k h5 hk30
    have e_files : ∀ j, ((storeAppend st b true).2).files j =
        if j = k then some b else st.files j := by
      intro j
      unfold storeAppend
      rw [if_neg (by simp [h1]), if_neg (by simp)]
      dsimp only
      rw [h4, show k - 1 + 1 = k by ring,
          show Int.tmod k MAX_RECORDS = k from tmod30_small k h5 hk30]
    obtain ⟨r1, r2, r3, r4, r5⟩ :=
      ih ((storeAppend st b true).2) (k + 1) e_ready e_cnt e_old
        (by rw [e_new]; ring) (by omega) (by omega)
    rw [List.foldl_cons]
    refine ⟨r1, by rw [r2, hlc]; ring, r3, by rw [r4, hlc]; ring, ?_⟩
    intro j
    rw [r5 j]
    by_cases hj1 : k + 1 ≤ j ∧ j < k + 1 + (bs.length : Int)
    · rw [if_pos hj1, if_pos (show k ≤ j ∧ j < k + ((b :: bs).length : Int) by
        rw [hlc]; omega)]
      have hnz : (j - k).toNat = (j - (k + 1)).toNat + 1 := by omega
      rw [hnz, List.getD_cons_succ]
    · rw [if_neg hj1, e_files j]
      by_cases hjk : j = k
      · rw [if_pos hjk, if_pos (show k ≤ j ∧ j < k + ((b :: bs).length : Int) by
          rw [hlc]; omega)]
        subst hjk
        rw [show (j - j).toNat = 0 by omega, List.getD_cons_zero]
      · rw [if_neg hjk, if_neg (by rw [hlc]; omega)]

/-- C4: on a successful append, `newestSlot` always advances modulo
capacity; below capacity `oldestSlot` is fixed and `count` grows by one; at
capacity both slots advance and `count` stays at capacity.  Consequently
appending 31 records into the empty 30-slot store leaves `count` at
capacity and logical index 0 reading the 2nd physically appended record. -/
theorem claim4_theorem (st : StoreSt) (blob : List Val) (blobs : List (List Val)) :
    (st.storageReady = true →
      ((storeAppend st blob true).1 = true ∧
       (storeAppend st blob true).2.newestRecordIndex =
         (st.newestRecordIndex + 1).tmod MAX_RECORDS ∧
       (st.storedRecordCount < MAX_RECORDS →
         (storeAppend st blob true).2.oldestRecordIndex = st.oldestRecordIndex ∧
         (storeAppend st blob true).2.storedRecordCount =
           st.storedRecordCount + 1) ∧
       (st.storedRecordCount = MAX_RECORDS →
         (storeAppend st blob true).2.oldestRecordIndex =
           (st.oldestRecordIndex + 1).tmod MAX_RECORDS ∧
         (storeAppend st blob true).2.storedRecordCount = MAX_RECORDS))) ∧
    (blobs.length = 31 →
      (appendAll blobs).storedRecordCount = MAX_RECORDS ∧
      readLogical (appendAll blobs) 0 = some (blobs.getD 1 [])) := by
  constructor
  · intro hr
    unfold storeAppend
    rw [if_neg (by simp [hr]), if_neg (by simp)]
    dsimp only
    refine ⟨rfl, rfl, ?_, ?_⟩
    · intro hlt
      have hev : ¬(MAX_RECORDS ≤ st.storedRecordCount) := by omega
      rw [if_neg hev, if_neg hev]
      exact ⟨rfl, rfl⟩
    · intro heq
      have hev : MAX_RECORDS ≤ st.storedRecordCount := by omega
      rw [if_pos hev, if_pos hev, heq]
      exact ⟨rfl, rfl⟩
  · intro h31
    have h30 : (blobs.take 30).length = 30 := by
      rw [List.length_take]; omega
    have h1len : (blobs.drop 30).length = 1 := by
      rw [List.length_drop]; omega
    obtain ⟨lb, hlb⟩ := List.length_eq_one.mp h1len
    have hsplit : blobs = blobs.take 30 ++ [lb] := by
      rw [← hlb, List.take_append_drop]
    obtain ⟨s1, s2, s3, s4, s5⟩ :=
      appendAll_go (blobs.take 30) (initialStore true) 0 rfl rfl rfl
        (by norm_num [initialStore]) le_rfl (by rw [h30]; norm_num)
    have hfold : appendAll blobs =
        (storeAppend ((blobs.take 30).foldl
          (fun a b => (storeAppend a b true).2) (initialStore true)) lb true).2 := by
      unfold appendAll
      conv_lhs => rw [hsplit]
      rw [List.foldl_append]
      rfl
    set S := (blobs.take 30).foldl
      (fun a b => (storeAppend a b true).2) (initialStore true) with hS
    have hc : S.storedRecordCount = 30 := by rw [s2, h30]; norm_num
    have ho : S.oldestRecordIndex = 0 := s3
    have hn : S.newestRecordIndex = 29 := by rw [s4, h30]; norm_num
    have hevS : MAX_RECORDS ≤ S.storedRecordCount := by
      rw [hc]; simp [MAX_RECORDS]
    have f_ready : ((storeAppend S lb true).2).storageReady = true := by
      unfold storeAppend
      rw [if_neg (by simp [s1]), if_neg (by simp)]
      simpa using s1
    have f_cnt : ((storeAppend S lb true).2).storedRecordCount = 30 := by
      unfold storeAppend
      rw [if_neg (by simp [s1]), if_neg (by simp)]
      dsimp only
      rw [if_pos hevS, hc]
    have f_old : ((storeAppend S lb true).2).oldestRecordIndex = 1 := by
      unfold storeAppend
      rw [if_neg (by simp [s1]), if_neg (by simp)]
      dsimp only
      rw [if_pos hevS, ho]
      decide
    have f_new : ((storeAppend S lb true).2).newestRecordIndex = 0 := by
      unfold storeAppend
      rw [if_neg (by simp [s1]), if_neg (by simp)]
      dsimp only
      rw [hn]
      decide
    have f_files : ∀ j, ((storeAppend S lb true).2).files j =
        if j = 0 then some lb else S.files j := by
      intro j
      unfold storeAppend
      rw [if_neg (by simp [s1]), if_neg (by simp)]
      dsimp only
      rw [hn, show Int.tmod (29 + 1) MAX_RECORDS = 0 by decide]
    rw [hfold]
    refine ⟨by rw [f_cnt]; rfl, ?_⟩
    unfold readLogical
    have hguard : ¬((storeAppend S lb true).2.storageReady = false ∨
        (0 : Int) < 0 ∨ (storeAppend S lb true).2.storedRecordCount = 0) := by
      push_neg
      refine ⟨by simp [f_ready], by norm_num, by rw [f_cnt]; norm_num⟩
    rw [if_neg hguard]
    dsimp only
    rw [if_neg (by rw [f_cnt]; norm_num), f_old]
    rw [show Int.tmod (1 + 0) MAX_RECORDS = 1 by decide, f_files 1,
        if_neg (by norm_num), s5 1,
        if_pos (by refine ⟨by norm_num, ?_⟩; rw [h30]; norm_num)]
    have hget : (blobs.take 30).getD ((1 : Int) - 0).toNat [] = blobs.getD 1 [] := by
      rw [show ((1 : Int) - 0).toNat = 1 by norm_num,
          List.getD_eq_getElem?_getD, List.getD_eq_getElem?_getD,
          List.getElem?_take_of_lt (by norm_num)]
    rw [hget]

/-- C4 witness: the eviction run on 31 concrete record files. -/
theorem claim4_witness :
    blobs31.length = 31 ∧
    (appendAll blobs31).storedRecordCount = MAX_RECORDS ∧
    readLogical (appendAll blobs31) 0 = some (blobs31.getD 1 []) :=
  ⟨by decide,
   (claim4_theorem (initialStore true) [] blobs31).2 (by decide)⟩

/-! ## Append-then-read round trip -/
/-- Component description of a successful `storeAppend`. -/
theorem storeAppend_true_spec (st : StoreSt) (blob : List Val)
    (hr : st.storageReady = true) :
    (storeAppend st blob true).1 = true ∧
    ((storeAppend st blob true).2).storageReady = true ∧
    ((storeAppend st blob true).2).newestRecordIndex =
      (st.newestRecordIndex + 1).tmod MAX_RECORDS ∧
    ((storeAppend st blob true).2).oldestRecordIndex =
      (if MAX_RECORDS ≤ st.storedRecordCount
       then (st.oldestRecordIndex + 1).tmod MAX_RECORDS
       else st.oldestRecordIndex) ∧
    ((storeAppend st blob true).2).storedRecordCount =
      (if MAX_RECORDS ≤ st.storedRecordCount
       then st.storedRecordCount else st.storedRecordCount + 1) ∧
    ∀ j, ((storeAppend st blob true).2).files j =
      if j = (st.newestRecordIndex + 1).tmod MAX_RECORDS then some blob
      else st.files j := by
  unfold storeAppend
  rw [if_neg (by simp [hr]), if_neg (by simp)]
  dsimp only
  exact ⟨rfl, by simpa using hr, rfl, rfl, rfl, fun j => rfl⟩

/-- After an append, reading the new logical index `count - 1` resolves to
exactly the slot just written. -/
theorem append_fileIndex (st : StoreSt) (hinv : st.ringInv) :
    ((if MAX_RECORDS ≤ st.storedRecordCount
      then (st.oldestRecordIndex + 1).tmod MAX_RECORDS
      else st.oldestRecordIndex) +
     ((if MAX_RECORDS ≤ st.storedRecordCount
       then st.storedRecordCount else st.storedRecordCount + 1) - 1)).tmod
      MAX_RECORDS = (st.newestRecordIndex + 1).tmod MAX_RECORDS ∧
    1 ≤ (if MAX_RECORDS ≤ st.storedRecordCount
         then st.storedRecordCount else st.storedRecordCount + 1) := by
  obtain ⟨i1, i2, i3, i4, i5, i6, i7⟩ := hinv
  simp only [MAX_RECORDS] at i2 i4 i6 i7 ⊢
  have hco : (st.newestRecordIndex + 1) % 30 =
      (st.oldestRecordIndex + st.storedRecordCount) % 30 := by
    rw [← Int.tmod_eq_emod (by omega) (by norm_num),
        ← Int.tmod_eq_emod (by omega) (by norm_num)]
    exact i7
  split_ifs with hev
  · have hc30 : st.storedRecordCount = 30 := by omega
    constructor
    · rw [Int.tmod_eq_emod (show (0 : Int) ≤ st.oldestRecordIndex + 1 by omega)
            (by norm_num)]
      have h2nn : (0 : Int) ≤ (st.oldestRecordIndex + 1) % 30 +
          (st.storedRecordCount - 1) := by
        have := Int.emod_nonneg (st.oldestRecordIndex + 1)
          (show (30 : Int) ≠ 0 by norm_num)
        omega
      rw [Int.tmod_eq_emod h2nn (by norm_num),
          Int.tmod_eq_emod (show (0 : Int) ≤ st.newestRecordIndex + 1 by omega)
            (by norm_num)]
      omega
    · omega
  · constructor
    · rw [show st.oldestRecordIndex + (st.storedRecordCount + 1 - 1) =
            st.oldestRecordIndex + st.storedRecordCount by ring,
          Int.tmod_eq_emod (by omega) (by norm_num),
          Int.tmod_eq_emod (by omega) (by norm_num)]
      omega
    · omega

/-- Running `loadRecord` on a present, parseable slot gives this exact state. -/
theorem loadRecord_success_eq (s : Sys) (i li : Int) (blob : List Val)
    (r : Record)
    (hg : ¬(s.store.storageReady = false ∨ i < 0 ∨
            s.store.storedRecordCount = 0))
    (hli : (if s.store.storedRecordCount ≤ i
            then s.store.storedRecordCount - 1 else i) = li)
    (hfile : s.store.files ((s.store.oldestRecordIndex + li).tmod MAX_RECORDS) =
             some blob)
    (hde : deserializeRecord blob = some r) :
    loadRecord s i = (true, { s with
      samplingFrequency := r.meta.samplingFreq,
      xM := r.meta.peakX, yM := r.meta.peakY, zM := r.meta.peakZ,
      currentRecordTime := r.meta.rtcTime,
      maxV := (r.meta.maxX, r.meta.maxY, r.meta.maxZ),
      minV := (r.meta.minX, r.meta.minY, r.meta.minZ),
      meanV := (r.meta.meanX, r.meta.meanY, r.meta.meanZ),
      sdV := (r.meta.sdX, r.meta.sdY, r.meta.sdZ),
      accXvec := r.accXvec, accYvec := r.accYvec, accZvec := r.accZvec,
      vRealX := r.vRealX, vRealY := r.vRealY, vRealZ := r.vRealZ,
      currentViewRecord := li }) := by
  unfold loadRecord
  rw [if_neg hg]
  dsimp only
  rw [hli, hfile]
  simp only [hde]

/-- C5: append-then-read-newest is a bit-identical round trip, for every
ready store satisfying the ring invariant and every buffer contents. -/
theorem claim5_theorem (sq : ℚ → ℚ) (s : Sys) (now : Nat)
    (hr : s.store.storageReady = true) (hinv : s.store.ringInv)
    (hwf : s.wfBuffers) : roundTripSpec sq s now := by
  obtain ⟨hw1, hw2, hw3, hw4, hw5, hw6⟩ := hwf
  have hwfr : (mkRecord sq s now).wf := ⟨hw1, hw2, hw3, hw4, hw5, hw6⟩
  have hrt := deserializeRecord_serializeRecord _ hwfr
  obtain ⟨a1, a2, a3, a4, a5, a6⟩ :=
    storeAppend_true_spec s.store (serializeRecord (mkRecord sq s now)) hr
  obtain ⟨hfi, hcnt1⟩ := append_fileIndex s.store hinv
  have hsave1 : (saveCurrentRecord sq s now true).1 = true := by
    unfold saveCurrentRecord
    rw [if_neg (by simp [a1])]
  have hsave_store : (saveCurrentRecord sq s now true).2.store =
      (storeAppend s.store (serializeRecord (mkRecord sq s now)) true).2 := by
    unfold saveCurrentRecord
    rw [if_neg (by simp [a1])]
  have hc1 : 1 ≤ (saveCurrentRecord sq s now true).2.store.storedRecordCount := by
    rw [hsave_store, a5]; exact hcnt1
  have hguard : ¬((saveCurrentRecord sq s now true).2.store.storageReady = false ∨
      (saveCurrentRecord sq s now true).2.store.storedRecordCount - 1 < 0 ∨
      (saveCurrentRecord sq s now true).2.store.storedRecordCount = 0) := by
    push_neg
    refine ⟨by rw [hsave_store]; simp [a2], by omega, by omega⟩
  have hclamp : (if (saveCurrentRecord sq s now true).2.store.storedRecordCount ≤
        (saveCurrentRecord sq s now true).2.store.storedRecordCount - 1
      then (saveCurrentRecord sq s now true).2.store.storedRecordCount - 1
      else (saveCurrentRecord sq s now true).2.store.storedRecordCount - 1) =
      (saveCurrentRecord sq s now true).2.store.storedRecordCount - 1 := by
    split_ifs <;> rfl
  have hfile : (saveCurrentRecord sq s now true).2.store.files
      (((saveCurrentRecord sq s now true).2.store.oldestRecordIndex +
        ((saveCurrentRecord sq s now true).2.store.storedRecordCount - 1)).tmod
        MAX_RECORDS) = some (serializeRecord (mkRecord sq s now)) := by
    rw [hsave_store, a4, a5, hfi, a6, if_pos rfl]
  have hload := loadRecord_success_eq (saveCurrentRecord sq s now true).2
    ((saveCurrentRecord sq s now true).2.store.storedRecordCount - 1)
    ((saveCurrentRecord sq s now true).2.store.storedRecordCount - 1)
    (serializeRecord (mkRecord sq s now)) (mkRecord sq s now)
    hguard hclamp hfile hrt
  have hread : readLogical (saveCurrentRecord sq s now true).2.store
      ((saveCurrentRecord sq s now true).2.store.storedRecordCount - 1) =
      some (serializeRecord (mkRecord sq s now)) := by
    unfold readLogical
    rw [if_neg hguard]
    dsimp only
    rw [hclamp, hfile]
  have hsave_stats : (saveCurrentRecord sq s now true).2.maxV =
        ((saveStats sq s.accXvec s.accYvec s.accZvec).maxX,
         (saveStats sq s.accXvec s.accYvec s.accZvec).maxY,
         (saveStats sq s.accXvec s.accYvec s.accZvec).maxZ) ∧
      (saveCurrentRecord sq s now true).2.minV =
        ((saveStats sq s.accXvec s.accYvec s.accZvec).minX,
         (saveStats sq s.accXvec s.accYvec s.accZvec).minY,
         (saveStats sq s.accXvec s.accYvec s.accZvec).minZ) ∧
      (saveCurrentRecord sq s now true).2.meanV =
        ((saveStats sq s.accXvec s.accYvec s.accZvec).meanX,
         (saveStats sq s.accXvec s.accYvec s.accZvec).meanY,
         (saveStats sq s.accXvec s.accYvec s.accZvec).meanZ) ∧
      (saveCurrentRecord sq s now true).2.sdV =
        ((saveStats sq s.accXvec s.accYvec s.accZvec).sdX,
         (saveStats sq s.accXvec s.accYvec s.accZvec).sdY,
         (saveStats sq s.accXvec s.accYvec s.accZvec).sdZ) := by
    unfold saveCurrentRecord
    rw [if_neg (by simp [a1])]
    exact ⟨rfl, rfl, rfl, rfl⟩
  unfold roundTripSpec
  refine ⟨hsave1, hread, hrt, by rw [hload], ?_⟩
  rw [hload]
  obtain ⟨st1, st2, st3, st4⟩ := hsave_stats
  refine ⟨rfl, rfl, rfl, rfl, rfl, rfl, rfl, rfl, rfl, rfl, rfl,
          by rw [st1]; rfl, by rw [st2]; rfl, by rw [st3]; rfl,
          by rw [st4]; rfl⟩

/-- C5 witness: round trip at a concrete ready system with zeroed buffers. -/
theorem claim5_witness :
    sys0.store.storageReady = true ∧ sys0.store.ringInv ∧
    Sys.wfBuffers sys0 ∧ roundTripSpec id sys0 0 :=
  ⟨rfl, by decide,
   by refine ⟨?_, ?_, ?_, ?_, ?_, ?_⟩ <;> simp [sys0, zeroBuf],
   claim5_theorem id sys0 0 rfl (by decide)
     (by refine ⟨?_, ?_, ?_, ?_, ?_, ?_⟩ <;> simp [sys0, zeroBuf])⟩

/-! ## Bulk export while viewing live data -/
/-- Calling `loadRecord` never changes the store part of the state. -/
theorem loadRecord_store_eq (s : Sys) (i : Int) :
    ((loadRecord s i).2).store = s.store := by
  unfold loadRecord
  split
  · rfl
  · dsimp only
    split
    · rfl
    · split
      · rfl
      · rfl

theorem foldl_loadRecord_store (l : List Nat) (s : Sys) :
    ((l.foldl (fun acc r => (loadRecord acc (Int.ofNat r)).2) s)).store = s.store := by
  induction l generalizing s with
  | nil => rfl
  | cons a l ih => rw [List.foldl_cons, ih, loadRecord_store_eq]

/-- C10: exporting while viewing live data (view -1) with at least one
stored record restores only the view index and record time; the live
buffers end up holding the last exported record's data. -/
theorem claim10_theorem (s : Sys) (lastRec : Record)
    (hready : s.store.storageReady = true)
    (hview : s.currentViewRecord = -1)
    (hcnt : 1 ≤ s.store.storedRecordCount)
    (hfile : s.store.files ((s.store.oldestRecordIndex +
        (s.store.storedRecordCount - 1)).tmod MAX_RECORDS) =
      some (serializeRecord lastRec))
    (hwf : lastRec.wf) : exportLiveSpec s lastRec := by
  have hrt := deserializeRecord_serializeRecord lastRec hwf
  have h1n : 1 ≤ s.store.storedRecordCount.toNat := by omega
  have hrange : List.range s.store.storedRecordCount.toNat =
      List.range (s.store.storedRecordCount.toNat - 1) ++
        [s.store.storedRecordCount.toNat - 1] := by
    conv_lhs => rw [show s.store.storedRecordCount.toNat =
      (s.store.storedRecordCount.toNat - 1) + 1 by omega]
    rw [List.range_succ]
  have hstoreMid : ((List.range (s.store.storedRecordCount.toNat - 1)).foldl
      (fun acc r => (loadRecord acc (Int.ofNat r)).2) s).store = s.store :=
    foldl_loadRecord_store _ s
  have hcast : Int.ofNat (s.store.storedRecordCount.toNat - 1) =
      s.store.storedRecordCount - 1 := by
    rw [Int.ofNat_eq_coe]
    omega
  set sMid := (List.range (s.store.storedRecordCount.toNat - 1)).foldl
      (fun acc r => (loadRecord acc (Int.ofNat r)).2) s with hsMid
  have hguard : ¬(sMid.store.storageReady = false ∨
      Int.ofNat (s.store.storedRecordCount.toNat - 1) < 0 ∨
      sMid.store.storedRecordCount = 0) := by
    push_neg
    rw [hstoreMid]
    refine ⟨by simp [hready], by rw [hcast]; omega, by omega⟩
  have hli : (if sMid.store.storedRecordCount ≤
        Int.ofNat (s.store.storedRecordCount.toNat - 1)
      then sMid.store.storedRecordCount - 1
      else Int.ofNat (s.store.storedRecordCount.toNat - 1)) =
      s.store.storedRecordCount - 1 := by
    rw [hstoreMid, hcast, if_neg (by omega)]
  have hfileMid : sMid.store.files ((sMid.store.oldestRecordIndex +
      (s.store.storedRecordCount - 1)).tmod MAX_RECORDS) =
      some (serializeRecord lastRec) := by
    rw [hstoreMid]
    exact hfile
  have hload := loadRecord_success_eq sMid
    (Int.ofNat (s.store.storedRecordCount.toNat - 1))
    (s.store.storedRecordCount - 1)
    (serializeRecord lastRec) lastRec hguard hli hfileMid hrt
  unfold exportLiveSpec exportAllRecordsSerial
  dsimp only
  rw [hview, if_neg (by norm_num), hrange, List.foldl_append]
  simp only [List.foldl_cons, List.foldl_nil]
  rw [← hsMid, hload]
  exact ⟨trivial, trivial, rfl, rfl, rfl, rfl, rfl, rfl⟩

/-- C10 witness: export on the concrete one-record store viewed live. -/
theorem claim10_witness :
    sys1.store.storageReady = true ∧ sys1.currentViewRecord = -1 ∧
    1 ≤ sys1.store.storedRecordCount ∧
    sys1.store.files ((sys1.store.oldestRecordIndex +
        (sys1.store.storedRecordCount - 1)).tmod MAX_RECORDS) =
      some (serializeRecord record0) ∧
    record0.wf ∧ exportLiveSpec sys1 record0 :=
  ⟨rfl, rfl, by decide, rfl,
   by refine ⟨?_, ?_, ?_, ?_, ?_, ?_⟩ <;> simp [record0, zeroBuf],
   claim10_theorem sys1 record0 rfl rfl (by decide) rfl
     (by refine ⟨?_, ?_, ?_, ?_, ?_, ?_⟩ <;> simp [record0, zeroBuf])⟩
